import Mathlib

/-!
Shallow embedding of the claude-memory-daemon core in Lean 4.

The JavaScript sources embedded here:
  * src/config.js   — numeric and filename constants;
  * src/parser.js   — the incremental JSONL parser, in two variants separated
    in the file: the chain-detecting variant (parseConversationDelta,
    formatWithChainDetection, tryDetectChain, formatChainSummary, getToolUses,
    getErrorResults, isTextOnlyMessage, classifyError, formatEntry) and the
    plain per-entry variant (parseConversationDelta, formatEntry); shared
    helpers (summarizeToolInput, truncateText) are identical in both;
  * src/state.js    — the cursor store (loadState, getFileOffset,
    updateFileOffset);
  * src/observer.js — appendObservations (lock-retry protocol) and
    exceedsThreshold;
  * src/reflector.js — runReflector (compaction rewrite under the lock);
  * src/watcher.js  — processFile, the per-cycle driver.

Modelling conventions.  JavaScript dynamic values are embedded as closed
inductive types: JSON values as JVal, entry content as JContent, result
content as RContent.  Host-language builtins (JSON.parse of a log line, the
two external claude -p passes, fs existence checks of the lock marker, clock
readings) are parameters of the model, supplied by the environment record of
a cycle.  File bytes are modelled as List Char with the byte offset as list
index.  JavaScript truthiness is made explicit at each use site (empty
string, zero and absent values are falsy).  While loops are embedded as
fuel-indexed structural recursions whose initial fuel provably dominates the
number of iterations, so every definition is executable by kernel reduction.
-/

/-! ## Configuration constants (src/config.js) -/

def DEBOUNCE_MS : Nat := 5 * 60 * 1000

def MAX_CATCHUP_FILES : Nat := 10

def DEFAULT_REFLECTOR_THRESHOLD : Nat := 20000

def MAX_TOOL_RESULT_CHARS : Nat := 500

def MIN_FILE_SIZE_BYTES : Nat := 1024

def LOCK_RETRY_DELAY_MS : Nat := 5000

def LOCK_MAX_RETRIES : Nat := 12

/-! ## JavaScript string primitives

The embeddings of the host-language string operations the sources use:
String.prototype.trim, split, toLowerCase, slice, replace (first occurrence),
and the two regular expressions of classifyError. -/

/-- Whitespace recognised by the JavaScript trim (ASCII part). -/
def isJsWS (c : Char) : Bool :=
  c == ' ' || c == '\t' || c == '\n' || c == '\r' || c == '\x0b' || c == '\x0c'

/-- Embedding of String.prototype.trim on character lists. -/
def jsTrimL (cs : List Char) : List Char :=
  ((cs.dropWhile isJsWS).reverse.dropWhile isJsWS).reverse

/-- Embedding of String.prototype.trim. -/
def jsTrimS (s : String) : String :=
  String.mk (jsTrimL s.toList)

/-- Embedding of str.split over a single newline separator: like the
JavaScript split, it keeps empty segments (including a trailing one). -/
def splitNL : List Char → List (List Char)
  | [] => [[]]
  | c :: rest =>
    if c = '\n' then [] :: splitNL rest
    else
      match splitNL rest with
      | [] => [[c]]
      | g :: gs => (c :: g) :: gs

/-- String-valued form of splitNL. -/
def splitNLS (s : String) : List String :=
  (splitNL s.toList).map String.mk

/-- Embedding of String.prototype.toLowerCase (ASCII letters). -/
def jsLower (s : String) : String :=
  String.mk (s.toList.map Char.toLower)

/-- List prefix test used by the substring matchers. -/
def isPrefixL : List Char → List Char → Bool
  | [], _ => true
  | _ :: _, [] => false
  | a :: as, b :: bs => a == b && isPrefixL as bs

/-- Substring occurrence test (embedding of a literal regular expression). -/
def containsL (pat : List Char) : List Char → Bool
  | [] => isPrefixL pat []
  | c :: rest => isPrefixL pat (c :: rest) || containsL pat rest

/-- String-valued substring test. -/
def containsStr (s pat : String) : Bool :=
  containsL pat.toList s.toList

/-- One-position match of the regular expression `doesn.t want to proceed`:
the dot matches any character except a line terminator. -/
def doesntHere (cs : List Char) : Bool :=
  isPrefixL "doesn".toList cs &&
    (match cs.drop 5 with
     | [] => false
     | c :: rest => c != '\n' && c != '\r' && isPrefixL "t want to proceed".toList rest)

/-- Anywhere-match of the regular expression `doesn.t want to proceed`. -/
def doesntAny : List Char → Bool
  | [] => false
  | c :: rest => doesntHere (c :: rest) || doesntAny rest

/-- Test of the user-rejection regular expression on a whole string. -/
def doesntWantMatch (s : String) : Bool :=
  doesntAny s.toList

/-- Embedding of str.replace of the single character T by a space (first
occurrence only, as the JavaScript replace with a string pattern). -/
def replaceFirstT : List Char → List Char
  | [] => []
  | c :: rest => if c = 'T' then ' ' :: rest else c :: replaceFirstT rest

/-- Embedding of str.replace (first occurrence of a literal pattern by the
empty string). -/
def removeFirstOcc (pat : List Char) : List Char → List Char
  | [] => []
  | c :: rest =>
    if isPrefixL pat (c :: rest) then (c :: rest).drop pat.length
    else c :: removeFirstOcc pat rest

/-- JavaScript truthiness of an optional string (absent and empty are falsy). -/
def truthyId : Option String → Bool
  | some s => s != ""
  | none => false

/-- Embedding of the idiom `x || d` on an optional string field. -/
def orDefault (o : Option String) (d : String) : String :=
  match o with
  | some s => if s = "" then d else s
  | none => d

/-! ## JSON values (tool inputs) -/

/-- A JSON value, as produced by JSON.parse for a tool_use input. -/
inductive JVal where
  | str (s : String)
  | num (n : Int)
  | bool (b : Bool)
  | null
  | arr (vs : List JVal)
  | obj (kvs : List (String × JVal))
deriving Repr

/-- A JSON object: the key-value map of a tool input. -/
abbrev JObj := List (String × JVal)

/-- Minimal JSON string escaping, as JSON.stringify applies to string data. -/
def jsonEscape (s : String) : String :=
  String.mk (s.toList.flatMap (fun c =>
    if c = '\\' then ['\\', '\\']
    else if c = '"' then ['\\', '"']
    else if c = '\n' then ['\\', 'n']
    else [c]))

mutual

/-- Embedding of JSON.stringify. -/
def stringify : JVal → String
  | .str s => "\"" ++ jsonEscape s ++ "\""
  | .num n => toString n
  | .bool b => if b then "true" else "false"
  | .null => "null"
  | .arr vs => "[" ++ String.intercalate "," (stringifyList vs) ++ "]"
  | .obj kvs => "\x7b" ++ String.intercalate "," (stringifyKVs kvs) ++ "\x7d"

/-- Stringify each element of a JSON array. -/
def stringifyList : List JVal → List String
  | [] => []
  | v :: vs => stringify v :: stringifyList vs

/-- Stringify each pair of a JSON object. -/
def stringifyKVs : List (String × JVal) → List String
  | [] => []
  | (k, v) :: kvs => ("\"" ++ jsonEscape k ++ "\":" ++ stringify v) :: stringifyKVs kvs

end

mutual

/-- JavaScript string coercion of a value interpolated into a template. -/
def jsToString : JVal → String
  | .str s => s
  | .num n => toString n
  | .bool b => if b then "true" else "false"
  | .null => "null"
  | .arr vs => String.intercalate "," (jsToStringList vs)
  | .obj _ => "[object Object]"

/-- Coerce each element of a JSON array for the array toString join. -/
def jsToStringList : List JVal → List String
  | [] => []
  | v :: vs => jsToString v :: jsToStringList vs

end

/-- JavaScript truthiness of a JSON value. -/
def jsTruthy : JVal → Bool
  | .str s => s != ""
  | .num n => n != 0
  | .bool b => b
  | .null => false
  | .arr _ => true
  | .obj _ => true

/-- Property lookup on a JSON object. -/
def getProp (input : JObj) (k : String) : Option JVal :=
  (input.find? (fun kv => kv.1 == k)).map (fun kv => kv.2)

/-- Property lookup keeping only a truthy value (the `input.k || ...` idiom). -/
def truthyProp (input : JObj) (k : String) : Option JVal :=
  match getProp input k with
  | some v => if jsTruthy v then some v else none
  | none => none

/-! ## Shared parser helpers (identical in both parser.js variants) -/

/-- Embedding of truncateText: keep the leading 60% and trailing 30% of the
budget around a marker stating what was omitted.  (The JavaScript computes
the two lengths with Math.floor over floating-point products; for every
budget the sources use — 120, 200 and 500 — the results coincide with the
exact rational values used here.) -/
def truncateText (text : String) (maxChars : Nat) : String :=
  if text.length ≤ maxChars then text
  else
    let headLen := maxChars * 6 / 10
    let tailLen := maxChars * 3 / 10
    String.mk (text.toList.take headLen)
      ++ "\n... [truncated " ++ toString (text.length - headLen - tailLen)
      ++ " of " ++ toString text.length ++ " chars] ...\n"
      ++ (if tailLen = 0 then text else String.mk (text.toList.drop (text.length - tailLen)))

/-- Embedding of summarizeToolInput: tool-aware one-line rendering of a tool
input map, with the generic first-scalar / stringify fallback. -/
def summarizeToolInput (toolName : String) (input : JObj) : String :=
  let name := jsLower toolName
  if name = "read" ∨ name = "readfile" then
    match truthyProp input "file_path" with
    | some v => jsToString v
    | none =>
      match truthyProp input "path" with
      | some v => jsToString v
      | none => stringify (.obj input)
  else if name = "write" ∨ name = "writefile" then
    (match truthyProp input "file_path" with
     | some v => jsToString v
     | none =>
       match truthyProp input "path" with
       | some v => jsToString v
       | none => "?") ++ " (write)"
  else if name = "edit" then
    (match truthyProp input "file_path" with
     | some v => jsToString v
     | none =>
       match truthyProp input "path" with
       | some v => jsToString v
       | none => "?") ++ " (edit)"
  else if name = "bash" then
    let cmd := match truthyProp input "command" with
      | some v => jsToString v
      | none => ""
    truncateText cmd 200
  else if name = "glob" then
    "pattern: " ++ (match truthyProp input "pattern" with
      | some v => jsToString v
      | none => "?")
  else if name = "grep" then
    "pattern: " ++ (match truthyProp input "pattern" with
      | some v => jsToString v
      | none => "?")
  else if name = "task" then
    match truthyProp input "description" with
    | some v => jsToString v
    | none =>
      match getProp input "prompt" with
      | some (.str s) => String.mk (s.toList.take 100)
      | _ => ""
  else if name = "webfetch" then
    match truthyProp input "url" with
    | some v => jsToString v
    | none => "?"
  else if name = "websearch" then
    "query: " ++ (match truthyProp input "query" with
      | some v => jsToString v
      | none => "?")
  else
    match input with
    | [] => ""
    | (_, v) :: _ =>
      match v with
      | .str s => truncateText s 200
      | _ => truncateText (stringify (.obj input)) 200

/-! ## Log entry data model

One structured record of the JSONL log, as the parser reads it: a top-level
type tag, an optional message with content and an API message id, and the
isMeta marker.  Content blocks are polymorphic over text, tool_use and
tool_result (any other type tag is carried verbatim and ignored by every
consumer).  The content of a tool_result is either a string, an array of
blocks of which only the `text` ones are read, or some other value. -/

/-- An element of a tool_result content array; only its type tag and text
field are ever read. -/
structure TextItem where
  type : String
  text : Option String
deriving Repr

/-- The content field of a tool_result block. -/
inductive RContent where
  | str (s : String)
  | arr (items : List TextItem)
  | other
deriving Repr

/-- One content block of a message content array. -/
structure Block where
  type : String
  text : Option String
  name : Option String
  input : Option JObj
  is_error : Bool
  content : RContent
deriving Repr

/-- The content of a message: a plain string, an array of blocks, or some
other value (absent, null, a number...). -/
inductive JContent where
  | str (s : String)
  | arr (blocks : List Block)
  | other
deriving Repr

/-- The message field of a log entry. -/
structure Message where
  content : JContent
  id : Option String
deriving Repr

/-- One top-level JSONL log entry. -/
structure Entry where
  type : String
  message : Option Message
  isMeta : Bool
  content : JContent
deriving Repr

/-- The content formatEntry reads: `(obj.message || obj).content`. -/
def effContent (e : Entry) : JContent :=
  match e.message with
  | some m => m.content
  | none => e.content

/-- The correlation id the chain detector reads: `entry.message?.id`. -/
def entryMessageId (e : Entry) : Option String :=
  e.message.bind (fun m => m.id)

/-! ## Chain-detection helpers (src/parser.js, chain variant) -/

/-- Rendering of a tool_result content field to text: the string itself, or
the newline join of the text of its `text` items, or empty. -/
def resultText : RContent → String
  | .str s => s
  | .arr items =>
    String.intercalate "\n" ((items.filter (fun b => b.type == "text")).map
      (fun b => b.text.getD ""))
  | .other => ""

/-- One extracted tool_use block: name, input and rendered input summary. -/
structure ToolUse where
  name : String
  input : JObj
  summary : String
deriving Repr

/-- Embedding of getToolUses: the tool_use blocks of an assistant entry, or
none when the entry is not an assistant entry with at least one. -/
def getToolUses (entry : Entry) : Option (List ToolUse) :=
  if entry.type ≠ "assistant" then none
  else
    match entry.message with
    | none => none
    | some m =>
      match m.content with
      | .arr blocks =>
        let toolUses := (blocks.filter (fun b => b.type == "tool_use")).map
          (fun b =>
            { name := orDefault b.name "unknown"
              input := b.input.getD []
              summary := summarizeToolInput (orDefault b.name "unknown") (b.input.getD []) })
        if 0 < toolUses.length then some toolUses else none
      | _ => none

/-- Lift of getToolUses to a possibly-absent entry (the `!entry` guard). -/
def getToolUsesO : Option Entry → Option (List ToolUse)
  | none => none
  | some e => getToolUses e

/-- Embedding of getErrorResults: the error texts of a user entry whose
tool_result blocks are non-empty and all flagged is_error, else none. -/
def getErrorResults (entry : Entry) : Option (List String) :=
  if entry.type ≠ "user" ∧ entry.type ≠ "human" then none
  else
    match entry.message with
    | none => none
    | some m =>
      match m.content with
      | .arr blocks =>
        if (blocks.filter (fun b => b.type == "tool_result")).length = 0 then none
        else if ((blocks.filter (fun b => b.type == "tool_result")).filter
              (fun b => b.is_error)).length
            ≠ (blocks.filter (fun b => b.type == "tool_result")).length then none
        else some (((blocks.filter (fun b => b.type == "tool_result")).filter
            (fun b => b.is_error)).map (fun e => resultText e.content))
      | _ => none

/-- Lift of getErrorResults to a possibly-absent entry (the `!entry` guard). -/
def getErrorResultsO : Option Entry → Option (List String)
  | none => none
  | some e => getErrorResults e

/-- Embedding of isTextOnlyMessage: an assistant entry whose content is a
plain string or an array of only text and thinking blocks. -/
def isTextOnlyMessage (entry : Entry) : Bool :=
  if entry.type ≠ "assistant" then false
  else
    match entry.message with
    | none => false
    | some m =>
      match m.content with
      | .arr blocks => blocks.all (fun b => b.type == "text" || b.type == "thinking")
      | .str _ => true
      | .other => false

/-- Embedding of classifyError: fixed-priority keyword match over the
lowercased join of the error texts, with a truncated first-line fallback. -/
def classifyError (errorTexts : List String) : String :=
  let combined := jsLower (String.intercalate " " errorTexts)
  if containsStr combined "permission" then "permission denied"
  else if doesntWantMatch combined then "user rejected"
  else if containsStr combined "timeout" then "timeout"
  else
    let firstError := (errorTexts.head?).getD ""
    let firstLine := ((splitNLS firstError).find? (fun l => jsTrimS l ≠ "")).getD firstError
    truncateText firstLine 120

/-! ## Chain detection (tryDetectChain) -/

/-- One (tool calls, all-error result) pairing of a detected retry chain. -/
structure Attempt where
  toolUses : List ToolUse
  errors : List String
  errorBrief : String
deriving Repr

/-- A detected retry chain: its attempts and the index of the first entry
after the chain. -/
structure Chain where
  attempts : List Attempt
  endIndex : Nat
deriving Repr

/-- The retry-extension while loop of tryDetectChain, as a fuel-indexed
structural recursion.  Each iteration advances the scan index by one (a
skipped text-only assistant entry) or two (an appended attempt), so any
fuel of at least `entries.length - j` computes the loop exactly: once the
fuel is exhausted the index is already past the end of the list, where the
loop would stop anyway.  Returns the appended attempts and the end index. -/
def chainLoopF : Nat → List Entry → String → Option String → Nat → List Attempt × Nat
  | 0, _, _, _, j => ([], j)
  | fuel + 1, entries, chainToolName, firstMessageId, j =>
    match entries[j]? with
    | none => ([], j)
    | some e =>
      if isTextOnlyMessage e then chainLoopF fuel entries chainToolName firstMessageId (j + 1)
      else
        match getToolUses e with
        | none => ([], j)
        | some toolUses =>
          let msgId := entryMessageId e
          if truthyId msgId ∧ truthyId firstMessageId ∧ msgId = firstMessageId then ([], j)
          else if toolUses.head?.map (fun tu => tu.name) ≠ some chainToolName then ([], j)
          else
            match getErrorResultsO entries[j + 1]? with
            | some errors =>
              let rest := chainLoopF fuel entries chainToolName firstMessageId (j + 2)
              (⟨toolUses, errors, classifyError errors⟩ :: rest.1, rest.2)
            | none => ([], j)

/-- The retry-extension loop at its canonical (sufficient) fuel. -/
def chainLoop (entries : List Entry) (chainToolName : String)
    (firstMessageId : Option String) (j : Nat) : List Attempt × Nat :=
  chainLoopF (entries.length - j) entries chainToolName firstMessageId j

/-- Embedding of tryDetectChain: recognise an error chain starting at
startIndex, or none. -/
def tryDetectChain (entries : List Entry) (startIndex : Nat) : Option Chain :=
  match getToolUsesO entries[startIndex]? with
  | none => none
  | some firstToolUses =>
    match firstToolUses with
    | [] => none
    | ftu :: _ =>
      let firstMessageId := (entries[startIndex]?).bind entryMessageId
      match getErrorResultsO entries[startIndex + 1]? with
      | none => none
      | some firstErrors =>
        let res := chainLoop entries ftu.name firstMessageId (startIndex + 2)
        some ⟨⟨firstToolUses, firstErrors, classifyError firstErrors⟩ :: res.1, res.2⟩

/-! ## Chain rendering (formatChainSummary) -/

/-- The join of the input summaries of the tool calls of one attempt. -/
def joinedSummary (a : Attempt) : String :=
  String.intercalate ", " (a.toolUses.map (fun tu => tu.summary))

/-- The tool name of an attempt (`attempts[0].toolUses[0].name`). -/
def headToolName (a : Attempt) : String :=
  match a.toolUses with
  | tu :: _ => tu.name
  | [] => ""

/-- Embedding of formatChainSummary: the compressed rendering of a chain of
two or more failed attempts. -/
def formatChainSummary (chain : Chain) : String :=
  let attempts := chain.attempts
  let count := attempts.length
  let toolName := (attempts.head?.map headToolName).getD ""
  let inputSigs := attempts.map joinedSummary
  let sig0 := (inputSigs.head?).getD ""
  let allIdentical := inputSigs.all (fun s => s == sig0)
  let errorBriefs := attempts.map (fun a => a.errorBrief)
  let brief0 := (errorBriefs.head?).getD ""
  let sameError := errorBriefs.all (fun e => e == brief0)
  let summary := "[Retry chain: " ++ toolName ++ " x" ++ toString count ++ " failed]"
  if allIdentical then
    summary ++ "\n  Input: " ++ sig0 ++ "\n  Error: " ++ brief0
  else
    summary ++ "\n  First: " ++ sig0
      ++ "\n  Last: " ++ (inputSigs.getLast?).getD ""
      ++ (if sameError then "\n  Error: " ++ brief0
          else "\n  Last error: " ++ (errorBriefs.getLast?).getD "")

/-! ## Per-entry rendering: the two formatEntry variants -/

/-- The `[Tool Result]` line(s) a tool_result block yields when its rendered
content is non-empty (shared by both formatEntry variants). -/
def toolResultLines (b : Block) : List String :=
  let resultContent := resultText b.content
  if resultContent ≠ "" then
    ["[Tool Result]: " ++ truncateText resultContent MAX_TOOL_RESULT_CHARS]
  else []

/-- Embedding of the chain variant of formatEntry: renders user text, tool
results (skipping error results, which belong to the chain detector), assistant
text and tool calls. -/
def formatEntryChain (obj : Entry) : List String :=
  let type := obj.type
  let userPart :=
    if type = "user" ∨ type = "human" then
      match effContent obj with
      | .str content => if !obj.isMeta then ["[User]: " ++ content] else []
      | .arr blocks =>
        blocks.flatMap (fun block =>
          if block.type = "text" ∧ truthyId block.text then
            if !obj.isMeta then ["[User]: " ++ block.text.getD ""] else []
          else if block.type = "tool_result" then
            if block.is_error then [] else toolResultLines block
          else [])
      | .other => []
    else []
  let assistantPart :=
    if type = "assistant" then
      match effContent obj with
      | .str content => ["[Assistant]: " ++ content]
      | .arr blocks =>
        blocks.flatMap (fun block =>
          if block.type = "text" ∧ truthyId block.text then
            ["[Assistant]: " ++ block.text.getD ""]
          else if block.type = "tool_use" then
            let name := orDefault block.name "unknown"
            ["[Tool: " ++ name ++ "] " ++ summarizeToolInput name (block.input.getD [])]
          else [])
      | .other => []
    else []
  userPart ++ assistantPart

/-- Embedding of the plain variant of formatEntry: identical to the chain
variant except that tool_result blocks are rendered regardless of their
is_error flag. -/
def formatEntryPlain (obj : Entry) : List String :=
  let type := obj.type
  let userPart :=
    if type = "user" ∨ type = "human" then
      match effContent obj with
      | .str content => if !obj.isMeta then ["[User]: " ++ content] else []
      | .arr blocks =>
        blocks.flatMap (fun block =>
          if block.type = "text" ∧ truthyId block.text then
            if !obj.isMeta then ["[User]: " ++ block.text.getD ""] else []
          else if block.type = "tool_result" then
            toolResultLines block
          else [])
      | .other => []
    else []
  let assistantPart :=
    if type = "assistant" then
      match effContent obj with
      | .str content => ["[Assistant]: " ++ content]
      | .arr blocks =>
        blocks.flatMap (fun block =>
          if block.type = "text" ∧ truthyId block.text then
            ["[Assistant]: " ++ block.text.getD ""]
          else if block.type = "tool_use" then
            let name := orDefault block.name "unknown"
            ["[Tool: " ++ name ++ "] " ++ summarizeToolInput name (block.input.getD [])]
          else [])
      | .other => []
    else []
  userPart ++ assistantPart

/-! ## The chain-detecting walk (formatWithChainDetection) -/

/-- The outer while loop of formatWithChainDetection, as a fuel-indexed
structural recursion.  Each step advances the index by one (ordinary entry)
or by the end index of the detected chain, which is at least two past the start,
so any fuel of at least `entries.length - i` computes the loop exactly. -/
def formatAuxF : Nat → List Entry → Nat → List String
  | 0, _, _ => []
  | fuel + 1, entries, i =>
    match entries[i]? with
    | none => []
    | some e =>
      match tryDetectChain entries i with
      | some chain =>
        (match chain.attempts with
         | [attempt] =>
           attempt.toolUses.map (fun tu => "[Tool: " ++ tu.name ++ "] " ++ tu.summary)
             ++ ["[Tool error: " ++ attempt.errorBrief ++ "]"]
         | _ => [formatChainSummary chain])
          ++ formatAuxF fuel entries chain.endIndex
      | none => formatEntryChain e ++ formatAuxF fuel entries (i + 1)

/-- Embedding of formatWithChainDetection: walk the entries from the start,
compressing detected chains. -/
def formatWithChainDetection (entries : List Entry) : List String :=
  formatAuxF entries.length entries 0

/-- The same walk started at an arbitrary index, at canonical fuel. -/
def formatFrom (entries : List Entry) (i : Nat) : List String :=
  formatAuxF (entries.length - i) entries i

/-! ## The two parseConversationDelta variants -/

/-- Decode the raw segment: split on newlines, keep lines with non-blank
trim, parse each line, silently skipping parse failures.  The JSON.parse of
one line is the host-language parameter parseLine. -/
def decodeLines (parseLine : String → Option Entry) (raw : List Char) : List Entry :=
  (((splitNL raw).map String.mk).filter (fun l => jsTrimS l ≠ "")).filterMap parseLine

/-- The result of one delta extraction: rendered text and the new offset. -/
structure DeltaResult where
  text : String
  newOffset : Nat
deriving Repr

/-- Embedding of the chain variant of parseConversationDelta: no-op when the
file size is not past the offset, else render the byte range
`[fromOffset, size)` with chain detection and return the size. -/
def parseConversationDelta (parseLine : String → Option Entry) (file : List Char)
    (fromOffset : Nat) : DeltaResult :=
  if file.length ≤ fromOffset then ⟨"", fromOffset⟩
  else
    let raw := file.drop fromOffset
    let entries := decodeLines parseLine raw
    ⟨String.intercalate "\n" (formatWithChainDetection entries), file.length⟩

/-- Embedding of the plain variant of parseConversationDelta: the same
slicing and decoding, rendering each entry independently with the plain
formatEntry. -/
def parseConversationDeltaPlain (parseLine : String → Option Entry) (file : List Char)
    (fromOffset : Nat) : DeltaResult :=
  if file.length ≤ fromOffset then ⟨"", fromOffset⟩
  else
    let raw := file.drop fromOffset
    let entries := decodeLines parseLine raw
    ⟨String.intercalate "\n" (entries.flatMap formatEntryPlain), file.length⟩

/-! ## Cursor store (src/state.js) -/

/-- The per-file record of the cursor store. -/
structure FileRec where
  offset : Nat
  lastProcessed : Option String
  observationCount : Nat
deriving Repr

/-- The per-project state record (observer-state.json). -/
structure ObserverState where
  files : List (String × FileRec)
  lastReflection : Option String
  totalObserverPasses : Nat
  totalReflectorPasses : Nat
deriving Repr

/-- The zeroed record loadState returns when no state file exists. -/
def defaultState : ObserverState :=
  ⟨[], none, 0, 0⟩

/-- Lookup of a filename in the files map. -/
def lookupFile (files : List (String × FileRec)) (name : String) : Option FileRec :=
  (files.find? (fun kv => kv.1 == name)).map (fun kv => kv.2)

/-- Overwrite-or-insert of a filename in the files map. -/
def setFile (files : List (String × FileRec)) (name : String) (r : FileRec) :
    List (String × FileRec) :=
  match files with
  | [] => [(name, r)]
  | (k, v) :: rest => if k == name then (k, r) :: rest else (k, v) :: setFile rest name r

/-- Embedding of getFileOffset: `state.files[filename]?.offset || 0`. -/
def getFileOffset (state : ObserverState) (filename : String) : Nat :=
  match lookupFile state.files filename with
  | some r => r.offset
  | none => 0

/-- The stored observation count of a file (0 when absent). -/
def getObservationCount (state : ObserverState) (filename : String) : Nat :=
  match lookupFile state.files filename with
  | some r => r.observationCount
  | none => 0

/-- Embedding of updateFileOffset: overwrite the offset, stamp
lastProcessed, and accumulate the observation count. -/
def updateFileOffset (state : ObserverState) (filename : String) (offset : Nat)
    (now : String) (observationCount : Nat) : ObserverState :=
  let prevCount := match lookupFile state.files filename with
    | some r => r.observationCount
    | none => 0
  { state with
    files := setFile state.files filename ⟨offset, some now, prevCount + observationCount⟩ }

/-! ## Observer append path (src/observer.js) -/

/-- The lock-wait while loop of appendObservations, fuel-indexed.  The call
argument of the lock predicate is the index of the existsSync call, so a
trace of lock observations drives the loop.  The loop makes one check per
iteration and stops when the check is false or the retry count has reached
LOCK_MAX_RETRIES; the returned value is the number of sleeps taken. -/
def lockWaitLoopF : Nat → (Nat → Bool) → Nat → Nat
  | 0, _, retries => retries
  | fuel + 1, locked, retries =>
    if locked retries ∧ retries < LOCK_MAX_RETRIES then lockWaitLoopF fuel locked (retries + 1)
    else retries

/-- The lock-wait loop at sufficient fuel (at most LOCK_MAX_RETRIES + 1
iterations are ever taken). -/
def lockWaitRetries (locked : Nat → Bool) : Nat :=
  lockWaitLoopF (LOCK_MAX_RETRIES + 1) locked 0

/-- The outcome of one appendObservations call: whether the append happened,
the artifact content afterwards, and the number of lock-retry sleeps. -/
structure AppendOutcome where
  ok : Bool
  artifact : Option String
  waits : Nat
deriving Repr

/-- Embedding of appendObservations: wait out the lock marker on a fixed
retry schedule; if it is still present at the final check, skip the append
and leave the artifact untouched; otherwise ensure the artifact exists with
its top-level header and append a dated section followed by the
observations. -/
def appendObservations (locked : Nat → Bool) (artifact : Option String)
    (observations : String) (sessionId : String) (now : String) : AppendOutcome :=
  let r := lockWaitRetries locked
  if locked (r + 1) then ⟨false, artifact, r⟩
  else
    let base := match artifact with
      | some c => c
      | none => "# Observations\n"
    let dateStr := String.mk ((replaceFirstT now.toList).take 16)
    let header := "\n## " ++ dateStr ++ " — Session " ++ sessionId ++ "\n\n"
    ⟨true, some (base ++ header ++ observations ++ "\n"), r⟩

/-- Embedding of exceedsThreshold: the artifact byte size divided by four
(the token estimate) strictly exceeds the threshold; false when the artifact
is missing. -/
def exceedsThreshold (artifact : Option String) (threshold : Nat) : Bool :=
  match artifact with
  | some c => threshold * 4 < c.length
  | none => false

/-! ## Reflector pass (src/reflector.js) -/

/-- The outcome of one runReflector call. -/
structure ReflectOutcome where
  ok : Bool
  artifact : Option String
deriving Repr

/-- Embedding of runReflector: under the lock, read the artifact (absent or
blank content aborts), run the external compaction pass (reflectorOut is its
outcome, none meaning the call failed), and accept its trimmed output only
when it is at least 50 characters, renaming it over the artifact; every
failing path keeps the artifact unchanged and the lock is removed on every
exit path. -/
def runReflector (artifact : Option String) (reflectorOut : Option String) :
    ReflectOutcome :=
  match artifact with
  | none => ⟨false, none⟩
  | some currentContent =>
    if jsTrimS currentContent = "" then ⟨false, some currentContent⟩
    else
      match reflectorOut with
      | none => ⟨false, some currentContent⟩
      | some result =>
        let consolidated := jsTrimS result
        if consolidated = "" ∨ consolidated.length < 50 then ⟨false, some currentContent⟩
        else ⟨true, some (consolidated ++ "\n")⟩

/-! ## One processing cycle (src/watcher.js processFile) -/

/-- The session id extracted from a conversation filename:
`fileName.replace(".jsonl", "").slice(0, 8)`. -/
def sessionIdOf (fileName : String) : String :=
  String.mk ((removeFirstOcc ".jsonl".toList fileName.toList).take 8)

/-- The environment of one processing cycle: everything the cycle reads from
the outside world.  statSize is the stat of the file at the head of the
cycle (none: the file was deleted); fileContent is the file content at the
moment parseConversationDelta reads it; parseLine is JSON.parse on one line;
observerOut is the outcome of the external extraction pass (none: no
observations or the pass failed); lockChecks is the trace of lock-marker
existence checks; artifact is the observations file content; reflectorOut is
the outcome of the external compaction pass; now is the clock reading. -/
structure CycleEnv where
  statSize : Option Nat
  fileContent : List Char
  parseLine : String → Option Entry
  observerOut : String → Option String
  lockChecks : Nat → Bool
  artifact : Option String
  reflectorOut : Option String
  now : String

/-- The observable outcome of one processing cycle. -/
structure CycleResult where
  state : ObserverState
  saved : Bool
  artifact : Option String
  observerCalled : Bool
  appendAttempted : Bool
  appendOk : Bool
  appendWaits : Nat

/-- Embedding of processFile, one guarded processing cycle: stat and size
gates, offset gate, delta extraction, the minimum-content gate, the external
extraction pass, the lock-guarded append, the threshold-triggered reflector,
and the closing cursor update and state save. -/
def processFile (reflectorThreshold : Nat) (env : CycleEnv) (fileName : String)
    (state : ObserverState) : CycleResult :=
  match env.statSize with
  | none => ⟨state, false, env.artifact, false, false, false, 0⟩
  | some size =>
    if size < MIN_FILE_SIZE_BYTES then ⟨state, false, env.artifact, false, false, false, 0⟩
    else
      let offset := getFileOffset state fileName
      if size ≤ offset then ⟨state, false, env.artifact, false, false, false, 0⟩
      else
        let d := parseConversationDelta env.parseLine env.fileContent offset
        if d.text = "" ∨ (jsTrimS d.text).length < 100 then
          ⟨updateFileOffset state fileName d.newOffset env.now 0, true,
            env.artifact, false, false, false, 0⟩
        else
          match env.observerOut d.text with
          | none =>
            ⟨updateFileOffset state fileName d.newOffset env.now 0, true,
              env.artifact, true, false, false, 0⟩
          | some observations =>
            if observations = "" then
              ⟨updateFileOffset state fileName d.newOffset env.now 0, true,
                env.artifact, true, false, false, 0⟩
            else
              let ao := appendObservations env.lockChecks env.artifact observations
                (sessionIdOf fileName) env.now
              if ao.ok then
                let stateA := { state with totalObserverPasses := state.totalObserverPasses + 1 }
                let threshold := if reflectorThreshold = 0 then DEFAULT_REFLECTOR_THRESHOLD
                  else reflectorThreshold
                if exceedsThreshold ao.artifact threshold then
                  let ro := runReflector ao.artifact env.reflectorOut
                  let stateB := if ro.ok then
                      { stateA with
                        totalReflectorPasses := stateA.totalReflectorPasses + 1
                        lastReflection := some env.now }
                    else stateA
                  ⟨updateFileOffset stateB fileName d.newOffset env.now 1, true,
                    ro.artifact, true, true, true, ao.waits⟩
                else
                  ⟨updateFileOffset stateA fileName d.newOffset env.now 1, true,
                    ao.artifact, true, true, true, ao.waits⟩
              else
                ⟨updateFileOffset state fileName d.newOffset env.now 1, true,
                  ao.artifact, true, true, false, ao.waits⟩

/-- A sequence of completed processing cycles threading the stored state:
each step processes one file under one environment. -/
def runCycles (reflectorThreshold : Nat) (steps : List (CycleEnv × String))
    (state : ObserverState) : ObserverState :=
  match steps with
  | [] => state
  | (env, f) :: rest =>
    runCycles reflectorThreshold rest (processFile reflectorThreshold env f state).state

/-! ## Basic lemmas about the chain walk -/

/-- The retry-extension loop never moves the end index backwards. -/
theorem chainLoopF_snd_ge (entries : List Entry) (tn : String) (fid : Option String) :
    ∀ fuel j, j ≤ (chainLoopF fuel entries tn fid j).2 := by
  intro fuel
  induction fuel with
  | zero => intro j; simp [chainLoopF]
  | succ f ih =>
    intro j
    rw [chainLoopF]
    cases hE : entries[j]? with
    | none => simp
    | some e =>
      simp only
      split
      · exact le_trans (Nat.le_succ j) (ih (j + 1))
      · split
        · simp
        · split
          · simp
          · split
            · simp
            · split
              · exact le_trans (by omega) (ih (j + 2))
              · simp

/-- A detected chain ends at least two entries past its start. -/
theorem tryDetectChain_endIndex_ge (entries : List Entry) (i : Nat) (c : Chain)
    (h : tryDetectChain entries i = some c) : i + 2 ≤ c.endIndex := by
  unfold tryDetectChain at h
  cases hT : getToolUsesO entries[i]? with
  | none => rw [hT] at h; exact absurd h (by simp)
  | some tus =>
    rw [hT] at h
    cases tus with
    | nil => exact absurd h (by simp)
    | cons ftu rest =>
      cases hEr : getErrorResultsO entries[i + 1]? with
      | none => simp only [hEr] at h; exact absurd h (by simp)
      | some errs =>
        simp only [hEr] at h
        have := chainLoopF_snd_ge entries ftu.name ((entries[i]?).bind entryMessageId)
          (entries.length - (i + 2)) (i + 2)
        cases h
        simpa [chainLoop] using this

/-- A chain can only start at an index inside the entry list. -/
theorem tryDetectChain_lt_length (entries : List Entry) (i : Nat) (c : Chain)
    (h : tryDetectChain entries i = some c) : i < entries.length := by
  unfold tryDetectChain at h
  cases hT : getToolUsesO entries[i]? with
  | none => rw [hT] at h; exact absurd h (by simp)
  | some tus =>
    cases hE : entries[i]? with
    | none => rw [hE] at hT; exact absurd hT (by simp [getToolUsesO])
    | some e => exact (List.getElem?_eq_some.mp hE).1

/-- The delta extractor never moves the offset backwards. -/
theorem parseConversationDelta_le_newOffset (parseLine : String → Option Entry)
    (file : List Char) (fromOffset : Nat) :
    fromOffset ≤ (parseConversationDelta parseLine file fromOffset).newOffset := by
  unfold parseConversationDelta
  split
  · simp
  · simp only
    omega

/-- Fuel irrelevance of the chain-detecting walk: any two sufficient fuels
compute the same rendering from the same index. -/
theorem formatAuxF_congr (entries : List Entry) :
    ∀ f1 f2 i, entries.length - i ≤ f1 → entries.length - i ≤ f2 →
      formatAuxF f1 entries i = formatAuxF f2 entries i := by
  intro f1
  induction f1 with
  | zero =>
    intro f2 i h1 _
    have hE : entries[i]? = none := List.getElem?_eq_none (by omega)
    cases f2 with
    | zero => rfl
    | succ g => simp [formatAuxF, hE]
  | succ f ih =>
    intro f2 i h1 h2
    cases f2 with
    | zero =>
      have hE : entries[i]? = none := List.getElem?_eq_none (by omega)
      simp [formatAuxF, hE]
    | succ g =>
      rw [formatAuxF, formatAuxF]
      cases hE : entries[i]? with
      | none => simp
      | some e =>
        have hi : i < entries.length := (List.getElem?_eq_some.mp hE).1
        simp only
        cases hC : tryDetectChain entries i with
        | some chain =>
          have hend := tryDetectChain_endIndex_ge entries i chain hC
          simp only
          congr 1
          exact ih g chain.endIndex (by omega) (by omega)
        | none =>
          simp only
          congr 1
          exact ih g (i + 1) (by omega) (by omega)

/-! ## Cursor-store lemmas -/

/-- Lookup after overwrite-or-insert. -/
theorem lookupFile_setFile (f g : String) (r : FileRec) :
    ∀ files, lookupFile (setFile files f r) g =
      if g = f then some r else lookupFile files g := by
  intro files
  induction files with
  | nil =>
    simp only [setFile, lookupFile, List.find?]
    split
    · next h => simp [(beq_iff_eq.mp h).symm]
    · next h =>
      have : ¬ g = f := fun hgf => by simp [hgf] at h
      simp [this]
  | cons kv rest ih =>
    obtain ⟨k, v⟩ := kv
    simp only [setFile]
    split
    · next hk =>
      have hk' : k = f := beq_iff_eq.mp hk
      simp only [lookupFile, List.find?]
      split
      · next h => simp_all [beq_iff_eq]
      · next h =>
        have : ¬ g = f := fun hgf => by simp [hk', hgf] at h
        simp [lookupFile, this]
    · next hk =>
      simp only [lookupFile, List.find?] at *
      split
      · next h =>
        have hgk : k = g := beq_iff_eq.mp h
        have : ¬ g = f := fun hgf => hk (by simp [hgk, hgf])
        simp [this]
      · next h => exact ih

/-- The stored offset after updateFileOffset: the written offset for the
updated file, unchanged for every other file. -/
theorem getFileOffset_updateFileOffset (s : ObserverState) (f : String) (off : Nat)
    (now : String) (d : Nat) (g : String) :
    getFileOffset (updateFileOffset s f off now d) g =
      if g = f then off else getFileOffset s g := by
  by_cases hgf : g = f <;>
    simp [getFileOffset, updateFileOffset, lookupFile_setFile, hgf]

/-- The stored observation count after updateFileOffset: accumulated by the
delta for the updated file, unchanged for every other file. -/
theorem getObservationCount_updateFileOffset (s : ObserverState) (f : String) (off : Nat)
    (now : String) (d : Nat) (g : String) :
    getObservationCount (updateFileOffset s f off now d) g =
      if g = f then getObservationCount s f + d else getObservationCount s g := by
  by_cases hgf : g = f <;>
    simp [getObservationCount, updateFileOffset, lookupFile_setFile, hgf]

/-- A state differing only in its counters stores the same offsets and
observation counts. -/
theorem getFileOffset_files_eq (s t : ObserverState) (h : s.files = t.files) (g : String) :
    getFileOffset s g = getFileOffset t g := by
  simp [getFileOffset, h]

/-- Counter-only updates leave the observation counts unchanged. -/
theorem getObservationCount_files_eq (s t : ObserverState) (h : s.files = t.files)
    (g : String) : getObservationCount s g = getObservationCount t g := by
  simp [getObservationCount, h]

/-- One cursor update with a non-retreating offset keeps every stored offset
and observation count non-decreasing, also when applied to a state that
differs from the reference state only in its counters. -/
theorem update_mono (state s' : ObserverState) (hfiles : s'.files = state.files)
    (f : String) (off d : Nat) (now : String)
    (hoff : getFileOffset state f ≤ off) (g : String) :
    getFileOffset state g ≤ getFileOffset (updateFileOffset s' f off now d) g ∧
    getObservationCount state g ≤ getObservationCount (updateFileOffset s' f off now d) g := by
  constructor
  · rw [getFileOffset_updateFileOffset]
    by_cases hgf : g = f
    · subst hgf; rw [if_pos rfl]; exact hoff
    · rw [if_neg hgf, getFileOffset_files_eq s' state hfiles]
  · rw [getObservationCount_updateFileOffset]
    by_cases hgf : g = f
    · subst hgf
      rw [if_pos rfl, getObservationCount_files_eq s' state hfiles]
      omega
    · rw [if_neg hgf, getObservationCount_files_eq s' state hfiles]

/-- One processing cycle never decreases any stored offset or observation
count. -/
theorem processFile_state_mono (th : Nat) (env : CycleEnv) (f : String)
    (state : ObserverState) (g : String) :
    getFileOffset state g ≤ getFileOffset (processFile th env f state).state g ∧
    getObservationCount state g ≤ getObservationCount (processFile th env f state).state g := by
  have hparse := parseConversationDelta_le_newOffset env.parseLine env.fileContent
    (getFileOffset state f)
  simp only [processFile]
  split
  · simp
  · split
    · simp
    · split
      · simp
      · split
        · exact update_mono state state rfl f _ 0 env.now hparse g
        · split
          · exact update_mono state state rfl f _ 0 env.now hparse g
          · split
            · exact update_mono state state rfl f _ 0 env.now hparse g
            · split
              · split <;> split <;>
                  exact update_mono state _ (by first | rfl | (split <;> rfl)) f _ 1
                    env.now hparse g
              · exact update_mono state state rfl f _ 1 env.now hparse g

/-! ## Claim theorems -/

/-- C7: per (project, file), across every sequence of completed processing
cycles the stored cursor offset is monotonically non-decreasing (each update
overwrites it with a value at least the previous one), and the stored
observationCount only accumulates (never decreases). -/
theorem cursor_monotone_across_cycles (th : Nat) (steps : List (CycleEnv × String))
    (state : ObserverState) (g : String) :
    getFileOffset state g ≤ getFileOffset (runCycles th steps state) g ∧
    getObservationCount state g ≤ getObservationCount (runCycles th steps state) g := by
  induction steps generalizing state with
  | nil => simp [runCycles]
  | cons step rest ih =>
    obtain ⟨env, f⟩ := step
    have h1 := processFile_state_mono th env f state g
    have h2 := ih (processFile th env f state).state
    exact ⟨le_trans h1.1 (by simpa [runCycles] using h2.1),
      le_trans h1.2 (by simpa [runCycles] using h2.2)⟩

/-- C8: a compaction-pass output that is empty or shorter than 50 characters
after trimming makes the compaction report failure and leaves the artifact
content exactly unchanged. -/
theorem reflector_short_output_keeps_artifact (artifact : Option String)
    (reflectorOut : Option String) (r : String)
    (hout : reflectorOut = some r) (hshort : (jsTrimS r).length < 50) :
    (runReflector artifact reflectorOut).ok = false ∧
    (runReflector artifact reflectorOut).artifact = artifact := by
  subst hout
  unfold runReflector
  cases artifact with
  | none => simp
  | some c =>
    simp only
    split
    · simp
    · rw [if_pos (Or.inr hshort)]
      simp

/-- Witness for C8 at a concrete artifact and a concrete short output. -/
theorem reflector_short_output_keeps_artifact_witness :
    (runReflector (some "# Observations\nfacts") (some "short")).ok = false ∧
    (runReflector (some "# Observations\nfacts") (some "short")).artifact =
      some "# Observations\nfacts" :=
  reflector_short_output_keeps_artifact (some "# Observations\nfacts") (some "short")
    "short" rfl (by decide)

/-- C6: the delta extractor returns an empty segment and the unchanged
offset when the file size is at most the offset, otherwise the rendering of
the byte range from the offset to the size together with the size; in all
cases the returned offset is at least the given one. -/
theorem delta_extractor_contract (parseLine : String → Option Entry) (file : List Char)
    (fromOffset : Nat) :
    (file.length ≤ fromOffset →
      parseConversationDelta parseLine file fromOffset = ⟨"", fromOffset⟩) ∧
    (fromOffset < file.length →
      parseConversationDelta parseLine file fromOffset =
        ⟨String.intercalate "\n"
            (formatWithChainDetection (decodeLines parseLine (file.drop fromOffset))),
          file.length⟩) ∧
    fromOffset ≤ (parseConversationDelta parseLine file fromOffset).newOffset := by
  refine ⟨?_, ?_, parseConversationDelta_le_newOffset parseLine file fromOffset⟩
  · intro h
    unfold parseConversationDelta
    rw [if_pos h]
  · intro h
    unfold parseConversationDelta
    rw [if_neg (by omega)]

/-- Witness for C6 on a concrete two-byte file read from offset one. -/
theorem delta_extractor_contract_witness :
    parseConversationDelta (fun _ => none) ['a', 'b'] 1 =
      ⟨String.intercalate "\n"
          (formatWithChainDetection (decodeLines (fun _ => none) (['a', 'b'].drop 1))), 2⟩ ∧
    1 ≤ (parseConversationDelta (fun _ => none) ['a', 'b'] 1).newOffset :=
  ⟨(delta_extractor_contract (fun _ => none) ['a', 'b'] 1).2.1 (by decide),
    (delta_extractor_contract (fun _ => none) ['a', 'b'] 1).2.2⟩

/-- C3: a chain of two or more attempts renders as one summary line with the
tool name and the attempt count followed by one shared Input and Error line
when all input summaries agree, and otherwise by a First and a Last line
plus either the shared Error line or the Last error line — the middle
attempts never contribute. -/
theorem chain_summary_rendering (a last : Attempt) (front : List Attempt) (k : Nat) :
    formatChainSummary ⟨a :: (front ++ [last]), k⟩ =
      (let sigs := (a :: (front ++ [last])).map joinedSummary
       let briefs := (a :: (front ++ [last])).map (fun x => x.errorBrief)
       let header := "[Retry chain: " ++ headToolName a ++ " x"
         ++ toString (front.length + 2) ++ " failed]"
       if sigs.all (fun s => s == joinedSummary a) then
         header ++ "\n  Input: " ++ joinedSummary a ++ "\n  Error: " ++ a.errorBrief
       else
         header ++ "\n  First: " ++ joinedSummary a ++ "\n  Last: " ++ joinedSummary last
           ++ (if briefs.all (fun e => e == a.errorBrief) then "\n  Error: " ++ a.errorBrief
               else "\n  Last error: " ++ last.errorBrief)) := by
  have hlen : (a :: (front ++ [last])).length = front.length + 2 := by
    simp only [List.length_cons, List.length_append, List.length_nil]
  have h1 : ((a :: (front ++ [last])).map joinedSummary).head? = some (joinedSummary a) := rfl
  have h2 : ((a :: (front ++ [last])).map joinedSummary).getLast? =
      some (joinedSummary last) := by
    rw [List.getLast?_map, show a :: (front ++ [last]) = (a :: front) ++ [last] from rfl,
      List.getLast?_concat]
    rfl
  have h3 : ((a :: (front ++ [last])).map (fun x : Attempt => x.errorBrief)).head? =
      some a.errorBrief := rfl
  have h4 : ((a :: (front ++ [last])).map (fun x : Attempt => x.errorBrief)).getLast? =
      some last.errorBrief := by
    rw [List.getLast?_map, show a :: (front ++ [last]) = (a :: front) ++ [last] from rfl,
      List.getLast?_concat]
    rfl
  have h5 : (a :: (front ++ [last])).head? = some a := rfl
  simp only [formatChainSummary, hlen, h1, h2, h3, h4, h5, Option.getD_some, Option.map_some]
  rfl

/-! ## Classification predicates for result entries -/

/-- Spec-side predicate: a result entry whose tool_result blocks are
non-empty and all flagged as error (blocks of other types are ignored). -/
def isAllErrorResultEntry (e : Entry) : Bool :=
  (e.type == "user" || e.type == "human") &&
    (match e.message with
     | some m =>
       match m.content with
       | .arr blocks =>
         decide (0 < (blocks.filter (fun b => b.type == "tool_result")).length) &&
           (blocks.filter (fun b => b.type == "tool_result")).all (fun b => b.is_error)
       | _ => false
     | none => false)

/-- An entry holding at least one content block that is not a tool_result. -/
def hasNonResultBlock (e : Entry) : Bool :=
  match e.message with
  | some m =>
    match m.content with
    | .arr blocks => blocks.any (fun b => b.type != "tool_result")
    | _ => false
  | none => false

/-- An entry holding at least one tool_result block not flagged as error. -/
def hasNonErrorToolResult (e : Entry) : Bool :=
  match e.message with
  | some m =>
    match m.content with
    | .arr blocks => blocks.any (fun b => b.type == "tool_result" && !b.is_error)
    | _ => false
  | none => false

/-- getErrorResults succeeds exactly on the entries isAllErrorResultEntry
describes. -/
theorem getErrorResults_isSome_eq (e : Entry) :
    (getErrorResults e).isSome = isAllErrorResultEntry e := by
  unfold getErrorResults isAllErrorResultEntry
  split
  · next h =>
    have htype : (e.type == "user" || e.type == "human") = false := by
      simp [h.1, h.2]
    simp [htype]
  · next h =>
    have htype : (e.type == "user" || e.type == "human") = true := by
      rcases not_and_or.mp h with h1 | h1 <;> simp [not_not.mp h1]
    rw [htype, Bool.true_and]
    cases hm : e.message with
    | none => rfl
    | some m =>
      cases hc : m.content with
      | str s => simp only [hc, Option.isSome_none]
      | other => simp only [hc, Option.isSome_none]
      | arr blocks =>
        simp only [hc]
        by_cases h0 : (blocks.filter (fun b => b.type == "tool_result")).length = 0
        · rw [if_pos h0, h0]
          rfl
        · rw [if_neg h0]
          by_cases hall : (blocks.filter (fun b => b.type == "tool_result")).all
              (fun b => b.is_error) = true
          · have heq : ((blocks.filter (fun b => b.type == "tool_result")).filter
                (fun b => b.is_error)).length
                = (blocks.filter (fun b => b.type == "tool_result")).length := by
              rw [List.filter_eq_self.mpr (List.all_eq_true.mp hall)]
            rw [if_neg (by omega), hall]
            simp [Nat.pos_of_ne_zero h0]
          · have hne : ((blocks.filter (fun b => b.type == "tool_result")).filter
                (fun b => b.is_error)).length
                ≠ (blocks.filter (fun b => b.type == "tool_result")).length := by
              intro heq
              exact hall (List.all_eq_true.mpr (List.filter_length_eq_length.mp heq))
            rw [if_pos hne]
            simp [Bool.eq_false_iff.mpr hall]

/-- A non-error tool_result block anywhere in an entry makes getErrorResults
fail. -/
theorem getErrorResults_eq_none_of_hasNonError (e : Entry)
    (h : hasNonErrorToolResult e = true) : getErrorResults e = none := by
  unfold getErrorResults
  split
  · rfl
  · cases hm : e.message with
    | none => rfl
    | some m =>
      cases hc : m.content with
      | str s => simp only [hc]
      | other => simp only [hc]
      | arr blocks =>
        simp only [hc]
        unfold hasNonErrorToolResult at h
        simp only [hm] at h
        simp only [hc] at h
        obtain ⟨b, hb, hbp⟩ := List.any_eq_true.mp h
        have hbt : (b.type == "tool_result") = true := by
          have := hbp
          simp only [Bool.and_eq_true] at this
          exact this.1
        have hbe : b.is_error = false := by
          have := hbp
          simp only [Bool.and_eq_true] at this
          simpa using this.2
        have hmem : b ∈ blocks.filter (fun b => b.type == "tool_result") :=
          List.mem_filter.mpr ⟨hb, hbt⟩
        by_cases h0 : (blocks.filter (fun b => b.type == "tool_result")).length = 0
        · rw [if_pos h0]
        · rw [if_neg h0]
          have hne : ((blocks.filter (fun b => b.type == "tool_result")).filter
              (fun b => b.is_error)).length
              ≠ (blocks.filter (fun b => b.type == "tool_result")).length := by
            intro heq
            have hall := List.filter_length_eq_length.mp heq
            have := hall b hmem
            rw [hbe] at this
            exact Bool.false_ne_true this
          rw [if_pos hne]

/-! ## Test fixtures -/

/-- A tool_use block calling Bash with a one-key input. -/
def fxToolUseBlock : Block :=
  ⟨"tool_use", none, some "Bash", some [("command", JVal.str "ls")], false, RContent.other⟩

/-- A tool_result block flagged as error. -/
def fxErrorResult : Block := ⟨"tool_result", none, none, none, true, RContent.str "boom"⟩

/-- A successful tool_result block. -/
def fxOkResult : Block := ⟨"tool_result", none, none, none, false, RContent.str "fine"⟩

/-- A plain text block. -/
def fxTextBlock : Block := ⟨"text", some "note", none, none, false, RContent.other⟩

/-- An assistant entry carrying one Bash tool call under a message id. -/
def fxAssistantCall (id : Option String) : Entry :=
  ⟨"assistant", some ⟨JContent.arr [fxToolUseBlock], id⟩, false, JContent.other⟩

/-- A user entry mixing a text block with an error tool_result. -/
def fxMixedErrorEntry : Entry :=
  ⟨"user", some ⟨JContent.arr [fxTextBlock, fxErrorResult], none⟩, false, JContent.other⟩

/-- A user entry whose only block is an error tool_result. -/
def fxAllErrorEntry : Entry :=
  ⟨"user", some ⟨JContent.arr [fxErrorResult], none⟩, false, JContent.other⟩

/-- A user entry whose only block is a successful tool_result. -/
def fxOkResultEntry : Entry :=
  ⟨"user", some ⟨JContent.arr [fxOkResult], none⟩, false, JContent.other⟩

/-- C1 counterexample: an entry at index i+1 that contains a block that is
not an operation-result (a text block next to the error result) nonetheless
starts a chain at i, contradicting the claim that all content blocks must be
operation-results. -/
theorem chain_starts_despite_non_result_block :
    (tryDetectChain [fxAssistantCall (some "m1"), fxMixedErrorEntry] 0).isSome = true ∧
    hasNonResultBlock fxMixedErrorEntry = true :=
  ⟨rfl, rfl⟩

/-- C1 (amended): chain recognition at i proceeds only if entry i+1 is a
user result entry with at least one tool_result block and all its
tool_result blocks flagged as error — blocks of other types are ignored; an
entry i+1 containing any non-error tool_result never starts a chain; and the
same all-error condition governs each extension step, which otherwise ends
the chain before the candidate entry with no attempt appended. -/
theorem chain_requires_all_error_results :
    (∀ (entries : List Entry) (i : Nat) (c : Chain),
        tryDetectChain entries i = some c →
        ∃ e, entries[i + 1]? = some e ∧ isAllErrorResultEntry e = true) ∧
    (∀ (entries : List Entry) (i : Nat) (e : Entry),
        entries[i + 1]? = some e → hasNonErrorToolResult e = true →
        tryDetectChain entries i = none) ∧
    (∀ (entries : List Entry) (tn : String) (fid : Option String) (j : Nat) (e : Entry),
        entries[j]? = some e → isTextOnlyMessage e = false →
        (∀ e2, entries[j + 1]? = some e2 → isAllErrorResultEntry e2 = false) →
        chainLoop entries tn fid j = ([], j)) := by
  refine ⟨?_, ?_, ?_⟩
  · intro entries i c h
    unfold tryDetectChain at h
    cases hT : getToolUsesO entries[i]? with
    | none => rw [hT] at h; cases h
    | some tus =>
      rw [hT] at h
      cases tus with
      | nil => cases h
      | cons ftu rest =>
        cases hE : getErrorResultsO entries[i + 1]? with
        | none =>
          rw [hE] at h
          exact Option.noConfusion h
        | some errs =>
          cases hEe : entries[i + 1]? with
          | none => rw [hEe] at hE; cases hE
          | some e2 =>
            refine ⟨e2, rfl, ?_⟩
            rw [hEe] at hE
            have hs : (getErrorResults e2).isSome = true := by
              rw [show getErrorResultsO (some e2) = getErrorResults e2 from rfl] at hE
              rw [hE]
              rfl
            rw [getErrorResults_isSome_eq] at hs
            exact hs
  · intro entries i e hE hNon
    unfold tryDetectChain
    cases hT : getToolUsesO entries[i]? with
    | none => rfl
    | some tus =>
      cases tus with
      | nil => rfl
      | cons ftu rest =>
        have hnone : getErrorResultsO entries[i + 1]? = none := by
          rw [hE]
          exact getErrorResults_eq_none_of_hasNonError e hNon
        simp only [hnone]
  · intro entries tn fid j e hE hText hAll
    have hj : j < entries.length := (List.getElem?_eq_some.mp hE).1
    have hnone : getErrorResultsO entries[j + 1]? = none := by
      cases hE2 : entries[j + 1]? with
      | none => rfl
      | some e2 =>
        have hs : (getErrorResults e2).isSome = false := by
          rw [getErrorResults_isSome_eq]
          exact hAll e2 hE2
        cases hge : getErrorResults e2 with
        | none => show getErrorResults e2 = none; exact hge
        | some v => rw [hge] at hs; cases hs
    unfold chainLoop
    rw [show entries.length - j = (entries.length - j - 1) + 1 from by omega]
    rw [chainLoopF]
    rw [hE]
    simp only [hText, Bool.false_eq_true, if_false]
    cases hT : getToolUses e with
    | none => rfl
    | some tus =>
      simp only
      split
      · rfl
      · split
        · rfl
        · simp only [hnone]

/-- Witness for the amended C1 at concrete entry sequences: an all-error
result entry follows a detected chain start; a successful result at i+1
blocks a chain; and an extension candidate followed by a successful result
ends the chain with no appended attempt. -/
theorem chain_requires_all_error_results_witness :
    (∃ e, [fxAssistantCall (some "m1"), fxAllErrorEntry][0 + 1]? = some e ∧
        isAllErrorResultEntry e = true) ∧
    tryDetectChain [fxAssistantCall (some "m1"), fxOkResultEntry] 0 = none ∧
    chainLoop [fxAssistantCall (some "m1"), fxAllErrorEntry, fxAssistantCall (some "m2"),
        fxOkResultEntry] "Bash" (some "m1") 2 = ([], 2) := by
  refine ⟨?_, ?_, ?_⟩
  · exact chain_requires_all_error_results.1 [fxAssistantCall (some "m1"), fxAllErrorEntry] 0
      ⟨[⟨[⟨"Bash", [("command", JVal.str "ls")], "ls"⟩], ["boom"], "boom"⟩], 2⟩ rfl
  · exact chain_requires_all_error_results.2.1 [fxAssistantCall (some "m1"), fxOkResultEntry]
      0 fxOkResultEntry rfl rfl
  · refine chain_requires_all_error_results.2.2 _ "Bash" (some "m1") 2
      (fxAssistantCall (some "m2")) rfl rfl ?_
    intro e2 h2
    have he : fxOkResultEntry = e2 := Option.some.inj h2
    rw [← he]
    rfl

/-- C2: an operation-call entry whose message id is truthy and equal to the
chain-starting entry's truthy message id is never appended to the chain: the
extension loop ends before that entry, appending nothing, regardless of what
its following result entry holds.  (tryDetectChain invokes this loop with
the chain-starting entry's message id as fid, so every produced chain ends
before any parallel sibling call.) -/
theorem parallel_call_never_folded (entries : List Entry) (tn : String)
    (fid : Option String) (j : Nat) (e : Entry) (tus : List ToolUse)
    (hE : entries[j]? = some e) (hText : isTextOnlyMessage e = false)
    (hT : getToolUses e = some tus)
    (hid : truthyId (entryMessageId e) = true)
    (hfid : truthyId fid = true)
    (heq : entryMessageId e = fid) :
    chainLoop entries tn fid j = ([], j) := by
  have hj : j < entries.length := (List.getElem?_eq_some.mp hE).1
  unfold chainLoop
  rw [show entries.length - j = (entries.length - j - 1) + 1 from by omega]
  rw [chainLoopF, hE]
  simp only [hText, Bool.false_eq_true, if_false]
  rw [hT]
  simp only
  rw [if_pos ⟨hid, hfid, heq⟩]

/-- Witness for C2: two identical Bash calls sharing message id m1, each
followed by an identical all-error result; the extension loop at the sibling
call ends the chain immediately. -/
theorem parallel_call_never_folded_witness :
    chainLoop [fxAssistantCall (some "m1"), fxAllErrorEntry, fxAssistantCall (some "m1"),
        fxAllErrorEntry] "Bash" (some "m1") 2 = ([], 2) :=
  parallel_call_never_folded _ "Bash" (some "m1") 2 (fxAssistantCall (some "m1"))
    [⟨"Bash", [("command", JVal.str "ls")], "ls"⟩] rfl rfl rfl rfl rfl rfl

/-- C4: a detected chain of exactly one failed attempt renders as the
attempt's tool-call line(s) followed by exactly one error-marker line with
the classified brief, never a Retry chain summary line, and the walk resumes
at the chain's end index, which is at least two past the start — so the
consumed error-result entry is never rendered by the per-entry path. -/
theorem single_failure_renders_plain (entries : List Entry) (i : Nat) (c : Chain)
    (attempt : Attempt) (h : tryDetectChain entries i = some c)
    (ha : c.attempts = [attempt]) :
    formatFrom entries i =
      attempt.toolUses.map (fun tu => "[Tool: " ++ tu.name ++ "] " ++ tu.summary)
        ++ (("[Tool error: " ++ attempt.errorBrief ++ "]") :: formatFrom entries c.endIndex) ∧
    i + 2 ≤ c.endIndex ∧
    formatWithChainDetection entries = formatFrom entries 0 := by
  have hlt := tryDetectChain_lt_length entries i c h
  have hend := tryDetectChain_endIndex_ge entries i c h
  refine ⟨?_, hend, by simp [formatWithChainDetection, formatFrom]⟩
  have hE : entries[i]? = some entries[i] := List.getElem?_eq_getElem hlt
  unfold formatFrom
  rw [show entries.length - i = (entries.length - i - 1) + 1 from by omega]
  rw [formatAuxF, hE]
  simp only [h, ha]
  rw [formatAuxF_congr entries (entries.length - i - 1) (entries.length - c.endIndex)
    c.endIndex (by omega) (le_refl _)]
  simp [List.append_assoc]

/-- A plain user text entry used to close the single-failure fixture. -/
def fxUserDone : Entry := ⟨"user", some ⟨JContent.str "done", none⟩, false, JContent.other⟩

/-- The single-failure fixture sequence: one call, one error result, one
ordinary entry. -/
def c4entries : List Entry := [fxAssistantCall (some "m1"), fxAllErrorEntry, fxUserDone]

/-- The single attempt the fixture sequence produces. -/
def c4attempt : Attempt := ⟨[⟨"Bash", [("command", JVal.str "ls")], "ls"⟩], ["boom"], "boom"⟩

/-- The chain the fixture sequence produces. -/
def c4chain : Chain := ⟨[c4attempt], 2⟩

/-- Witness for C4 on the concrete single-failure sequence. -/
theorem single_failure_renders_plain_witness :
    formatFrom c4entries 0 =
      c4attempt.toolUses.map (fun tu => "[Tool: " ++ tu.name ++ "] " ++ tu.summary)
        ++ (("[Tool error: " ++ c4attempt.errorBrief ++ "]")
          :: formatFrom c4entries c4chain.endIndex) ∧
    0 + 2 ≤ c4chain.endIndex ∧
    formatWithChainDetection c4entries = formatFrom c4entries 0 :=
  single_failure_renders_plain c4entries 0 c4chain c4attempt rfl rfl

/-! ## Error-free entries: chain machinery is a conservative extension -/

/-- An entry none of whose effective content blocks is an error-flagged
tool_result. -/
def entryNoErrBlocks (e : Entry) : Bool :=
  match effContent e with
  | .arr blocks => blocks.all (fun b => !(b.type == "tool_result" && b.is_error))
  | _ => true

/-- Without an error-flagged tool_result block, getErrorResults fails. -/
theorem getErrorResults_eq_none_of_noErr (e : Entry) (h : entryNoErrBlocks e = true) :
    getErrorResults e = none := by
  unfold getErrorResults
  split
  · rfl
  · cases hm : e.message with
    | none => rfl
    | some m =>
      cases hc : m.content with
      | str s => simp only [hc]
      | other => simp only [hc]
      | arr blocks =>
        simp only [hc]
        unfold entryNoErrBlocks effContent at h
        simp only [hm] at h
        simp only [hc] at h
        by_cases h0 : (blocks.filter (fun b => b.type == "tool_result")).length = 0
        · rw [if_pos h0]
        · rw [if_neg h0]
          have herr : (blocks.filter (fun b => b.type == "tool_result")).filter
              (fun b => b.is_error) = [] := by
            refine List.filter_eq_nil_iff.mpr ?_
            intro b hb
            have hbt := (List.mem_filter.mp hb).2
            have hball := List.all_eq_true.mp h b (List.mem_filter.mp hb).1
            rw [hbt] at hball
            simpa using hball
          rw [if_pos (by rw [herr]; exact fun hlen => h0 hlen.symm)]

/-- On an error-free entry sequence no chain is ever detected. -/
theorem tryDetectChain_eq_none_of_noErr (entries : List Entry)
    (h : entries.all entryNoErrBlocks = true) (i : Nat) :
    tryDetectChain entries i = none := by
  unfold tryDetectChain
  cases hT : getToolUsesO entries[i]? with
  | none => rfl
  | some tus =>
    cases tus with
    | nil => rfl
    | cons ftu rest =>
      have hnone : getErrorResultsO entries[i + 1]? = none := by
        cases hE : entries[i + 1]? with
        | none => rfl
        | some e2 =>
          show getErrorResults e2 = none
          exact getErrorResults_eq_none_of_noErr e2
            (List.all_eq_true.mp h e2 (List.getElem?_mem hE))
      simp only [hnone]

/-- On an error-free entry, the two formatEntry variants agree line for
line. -/
theorem formatEntry_chain_eq_plain (e : Entry) (h : entryNoErrBlocks e = true) :
    formatEntryChain e = formatEntryPlain e := by
  simp only [formatEntryChain, formatEntryPlain]
  congr 1
  by_cases ht : e.type = "user" ∨ e.type = "human"
  · rw [if_pos ht, if_pos ht]
    cases hc : effContent e with
    | str s => rfl
    | other => rfl
    | arr blocks =>
      unfold entryNoErrBlocks at h
      rw [hc] at h
      refine List.flatMap_congr ?_
      intro b hb
      have hball := List.all_eq_true.mp h b hb
      by_cases hbt : b.type = "text" ∧ truthyId b.text
      · rw [if_pos hbt, if_pos hbt]
      · rw [if_neg hbt, if_neg hbt]
        by_cases hbr : b.type = "tool_result"
        · rw [if_pos hbr, if_pos hbr]
          have hbe : b.is_error = false := by
            rw [show (b.type == "tool_result") = true from by simp [hbr]] at hball
            simpa using hball
          rw [hbe]
          simp
        · rw [if_neg hbr, if_neg hbr]
  · rw [if_neg ht, if_neg ht]

/-- When no chain is ever detected, the chain-detecting walk is the plain
concatenation of the per-entry renderings. -/
theorem formatAuxF_eq_flatMap_of_noChain (entries : List Entry)
    (hne : ∀ k, tryDetectChain entries k = none) :
    ∀ fuel i, entries.length - i ≤ fuel →
      formatAuxF fuel entries i = (entries.drop i).flatMap formatEntryChain := by
  intro fuel
  induction fuel with
  | zero =>
    intro i hi
    rw [List.drop_eq_nil_of_le (by omega)]
    rfl
  | succ f ih =>
    intro i hi
    cases hE : entries[i]? with
    | none =>
      have : entries.length ≤ i := List.getElem?_eq_none_iff.mp hE
      rw [formatAuxF, hE, List.drop_eq_nil_of_le this]
      rfl
    | some e =>
      obtain ⟨hlt, hee⟩ := List.getElem?_eq_some.mp hE
      rw [formatAuxF, hE, hne i]
      simp only
      rw [ih (i + 1) (by omega), List.drop_eq_getElem_cons hlt, List.flatMap_cons, hee]

/-- C10: on a delta whose decoded entries hold no error-flagged tool_result
block, the chain-detecting parseConversationDelta variant produces exactly
the output of the plain per-entry variant — the chain machinery is a
conservative extension on error-free input. -/
theorem chain_detection_conservative_on_error_free (parseLine : String → Option Entry)
    (file : List Char) (fromOffset : Nat)
    (h : (decodeLines parseLine (file.drop fromOffset)).all entryNoErrBlocks = true) :
    parseConversationDelta parseLine file fromOffset =
      parseConversationDeltaPlain parseLine file fromOffset := by
  unfold parseConversationDelta parseConversationDeltaPlain
  split
  · rfl
  · have hfmt : formatWithChainDetection (decodeLines parseLine (file.drop fromOffset)) =
        (decodeLines parseLine (file.drop fromOffset)).flatMap formatEntryPlain := by
      rw [show formatWithChainDetection (decodeLines parseLine (file.drop fromOffset)) =
        formatAuxF (decodeLines parseLine (file.drop fromOffset)).length
          (decodeLines parseLine (file.drop fromOffset)) 0 from rfl]
      rw [formatAuxF_eq_flatMap_of_noChain (decodeLines parseLine (file.drop fromOffset))
        (tryDetectChain_eq_none_of_noErr (decodeLines parseLine (file.drop fromOffset)) h)
        (decodeLines parseLine (file.drop fromOffset)).length 0 (by omega)]
      rw [List.drop_zero]
      exact List.flatMap_congr
        (fun e he => formatEntry_chain_eq_plain e (List.all_eq_true.mp h e he))
    simp only [hfmt]

/-- Witness for C10 on a concrete one-line file decoding to one error-free
user entry. -/
theorem chain_detection_conservative_witness :
    parseConversationDelta (fun _ => some fxUserDone) ['u'] 0 =
      parseConversationDeltaPlain (fun _ => some fxUserDone) ['u'] 0 :=
  chain_detection_conservative_on_error_free (fun _ => some fxUserDone) ['u'] 0 rfl

/-- C9: a processing cycle whose rendered delta text is empty or trims to
fewer than 100 characters advances the stored cursor to the new offset and
saves state, but never invokes the extraction pass and leaves the
observations artifact unchanged — an unstated minimum-content threshold. -/
theorem min_content_skips_extraction (th : Nat) (env : CycleEnv) (fileName : String)
    (state : ObserverState) (n : Nat)
    (hstat : env.statSize = some n) (hmin : MIN_FILE_SIZE_BYTES ≤ n)
    (hoff : getFileOffset state fileName < n)
    (hshort : (parseConversationDelta env.parseLine env.fileContent
        (getFileOffset state fileName)).text = "" ∨
      (jsTrimS (parseConversationDelta env.parseLine env.fileContent
        (getFileOffset state fileName)).text).length < 100) :
    (processFile th env fileName state).observerCalled = false ∧
    (processFile th env fileName state).artifact = env.artifact ∧
    (processFile th env fileName state).saved = true ∧
    getFileOffset (processFile th env fileName state).state fileName =
      (parseConversationDelta env.parseLine env.fileContent
        (getFileOffset state fileName)).newOffset := by
  simp only [processFile, hstat]
  rw [if_neg (by omega), if_neg (by omega), if_pos hshort]
  refine ⟨rfl, rfl, rfl, ?_⟩
  rw [getFileOffset_updateFileOffset]
  simp

/-- C5: with the lock marker present at every check, the append waits
LOCK_MAX_RETRIES = 12 sleeps of LOCK_RETRY_DELAY_MS = 5000 ms, returns
failure leaving the artifact unchanged, yet the cycle still advances the
stored cursor to the new end-of-file offset and saves state, so the
unrecorded delta is never reprocessed. -/
theorem lock_contention_skips_append_but_advances_cursor (th : Nat) (env : CycleEnv)
    (fileName : String) (state : ObserverState) (n : Nat) (obs : String)
    (hstat : env.statSize = some n) (hmin : MIN_FILE_SIZE_BYTES ≤ n)
    (hoff : getFileOffset state fileName < n)
    (hlong : 100 ≤ (jsTrimS (parseConversationDelta env.parseLine env.fileContent
        (getFileOffset state fileName)).text).length)
    (hobs : env.observerOut (parseConversationDelta env.parseLine env.fileContent
        (getFileOffset state fileName)).text = some obs)
    (hobs2 : obs ≠ "")
    (hlock : ∀ k, env.lockChecks k = true) :
    (processFile th env fileName state).appendAttempted = true ∧
    (processFile th env fileName state).appendOk = false ∧
    (processFile th env fileName state).appendWaits = LOCK_MAX_RETRIES ∧
    (processFile th env fileName state).artifact = env.artifact ∧
    (processFile th env fileName state).saved = true ∧
    getFileOffset (processFile th env fileName state).state fileName =
      (parseConversationDelta env.parseLine env.fileContent
        (getFileOffset state fileName)).newOffset ∧
    LOCK_MAX_RETRIES = 12 ∧ LOCK_RETRY_DELAY_MS = 5000 := by
  have hfun : env.lockChecks = fun _ => true := funext hlock
  have htext : ¬((parseConversationDelta env.parseLine env.fileContent
      (getFileOffset state fileName)).text = "" ∨
      (jsTrimS (parseConversationDelta env.parseLine env.fileContent
        (getFileOffset state fileName)).text).length < 100) := by
    rintro (h1 | h2)
    · rw [h1] at hlong
      have : (jsTrimS "").length = 0 := rfl
      omega
    · omega
  have hao : appendObservations env.lockChecks env.artifact obs (sessionIdOf fileName)
      env.now = ⟨false, env.artifact, 12⟩ := by
    rw [hfun]
    unfold appendObservations
    have hr : lockWaitRetries (fun _ => true) = 12 := rfl
    rw [hr]
    rw [if_pos rfl]
  simp only [processFile, hstat]
  rw [if_neg (by omega), if_neg (by omega), if_neg htext]
  simp only [hobs]
  rw [if_neg hobs2, hao]
  simp only
  refine ⟨rfl, rfl, rfl, rfl, rfl, ?_, rfl, rfl⟩
  rw [if_neg Bool.false_ne_true]
  rw [getFileOffset_updateFileOffset]
  simp

/-- Environment fixture for the minimum-content cycle: a one-byte delta that
renders to a 12-character line. -/
def c9env : CycleEnv :=
  ⟨some 2048, ['u'], fun _ => some fxUserDone, fun _ => none, fun _ => false,
    none, none, "t"⟩

/-- Witness for C9 on the concrete short-delta environment. -/
theorem min_content_skips_extraction_witness :
    (processFile 0 c9env "s.jsonl" defaultState).observerCalled = false ∧
    (processFile 0 c9env "s.jsonl" defaultState).artifact = c9env.artifact ∧
    (processFile 0 c9env "s.jsonl" defaultState).saved = true ∧
    getFileOffset (processFile 0 c9env "s.jsonl" defaultState).state "s.jsonl" =
      (parseConversationDelta c9env.parseLine c9env.fileContent
        (getFileOffset defaultState "s.jsonl")).newOffset :=
  min_content_skips_extraction 0 c9env "s.jsonl" defaultState 2048 rfl (by decide)
    (by decide) (Or.inr (by decide))

/-- A user entry with one hundred characters of text, for the long-delta
fixture. -/
def fxLongUserEntry : Entry :=
  ⟨"user",
    some ⟨JContent.str
      "aaaaaaaaaaaaaaaaaaaaaaaaaaaaaaaaaaaaaaaaaaaaaaaaaaaaaaaaaaaaaaaaaaaaaaaaaaaaaaaaaaaaaaaaaaaaaaaaaa",
      none⟩,
    false, JContent.other⟩

/-- Environment fixture for the lock-contention cycle: a long enough delta,
an extraction pass that produces observations, and a lock marker present at
every check. -/
def c5env : CycleEnv :=
  ⟨some 4096, ['u'], fun _ => some fxLongUserEntry, fun _ => some "remember this",
    fun _ => true, some "# Observations\nold", none, "2026-10-11T12:00"⟩

/-- Witness for C5 on the concrete contended environment. -/
theorem lock_contention_witness :
    (processFile 0 c5env "abc.jsonl" defaultState).appendAttempted = true ∧
    (processFile 0 c5env "abc.jsonl" defaultState).appendOk = false ∧
    (processFile 0 c5env "abc.jsonl" defaultState).appendWaits = LOCK_MAX_RETRIES ∧
    (processFile 0 c5env "abc.jsonl" defaultState).artifact = c5env.artifact ∧
    (processFile 0 c5env "abc.jsonl" defaultState).saved = true ∧
    getFileOffset (processFile 0 c5env "abc.jsonl" defaultState).state "abc.jsonl" =
      (parseConversationDelta c5env.parseLine c5env.fileContent
        (getFileOffset defaultState "abc.jsonl")).newOffset ∧
    LOCK_MAX_RETRIES = 12 ∧ LOCK_RETRY_DELAY_MS = 5000 :=
  lock_contention_skips_append_but_advances_cursor 0 c5env "abc.jsonl" defaultState 4096
    "remember this" rfl (by decide) (by decide) (by decide) rfl (by decide) (fun _ => rfl)
